import Mathlib

/-!
# Verification of the concurrent batch email dispatcher

Shallow embedding of the dispatcher core shared by
`send_emails_with_attachments.py` and `send_emails_with_pdf_attachments.py`:
mapping-file job preparation, attachment pre-flight validation, the
thread-local SMTP connection manager with refresh and retry, the per-job
send-with-retry loop, test mode, cancellation, and result aggregation /
failure-manifest reporting.

Conventions of the embedding:
* Python dict rows of the CSV mapping file become `Row` values holding the
  email-column cell and the attachment-column cells in column order.
* The filesystem, `mimetypes.guess_type`, SMTP connection creation and
  message transmission outcomes are oracles supplied as explicit parameters
  (`FileSystem`, fields of `AttachmentFile`, `createOk`, `sendOk`).
* Exceptions become explicit result constructors; an exception escaping a
  function is a distinguished constructor (`raisedExn`), never a boolean.
* Time values are abstract naturals; random jitter is an explicit rational
  parameter. Log output is modelled only where a claim mentions it.
* The cancellation flag `should_exit` is modelled as a boolean fixed for
  the duration of one call, matching a flag already set (or never set)
  when the call starts.
-/

set_option autoImplicit false

namespace EmailDispatch

/-! ## Python string primitives -/

/-- Python `str.strip()`: drop leading and trailing whitespace. Defined over
the character list so the kernel can evaluate it. -/
def pyStrip (s : String) : String :=
  ⟨((s.data.dropWhile Char.isWhitespace).reverse.dropWhile Char.isWhitespace).reverse⟩

/-- Python `c in s` for a single character `c`. -/
def pyContains (s : String) (c : Char) : Bool :=
  s.data.contains c

/-- Python `', '.join(l)` and friends. -/
def joinSep (sep : String) : List String → String
  | [] => ""
  | [s] => s
  | s :: rest => s ++ sep ++ joinSep sep rest

/-- `ctype.split('/', 1)[0]`: the MIME maintype. -/
def maintypeOf (ctype : String) : String :=
  ⟨ctype.data.takeWhile (fun c => c ≠ '/')⟩

/-- `ctype.split('/', 1)[1]`: the MIME subtype (everything after the first
`/`). -/
def subtypeOf (ctype : String) : String :=
  ⟨(ctype.data.dropWhile (fun c => c ≠ '/')).drop 1⟩

/-- `os.path.basename`: the final path component. -/
def basenameOf (p : String) : String :=
  ⟨(p.data.reverse.takeWhile (fun c => c ≠ '/')).reverse⟩

/-- `os.path.join(input_dir, attachment_file)` for a directory without a
trailing separator. -/
def joinPath (dir f : String) : String :=
  dir ++ "/" ++ f

/-! ## Job preparation (`read_mapping_file`) -/

/-- One data row of the CSV mapping file: the value of the email column and
the values of the attachment columns, in column order
(`read_mapping_file`, identical in both scripts). -/
structure Row where
  email : String
  attachmentCells : List String
  deriving Repr, DecidableEq

/-- `read_mapping_file` skips a row when `not email or '@' not in email`:
the email cell is empty or contains no `@` character. -/
def emailValid (e : String) : Bool :=
  !(e = "") && pyContains e '@'

/-- The inner loop of `read_mapping_file` collecting `files_for_row`: a cell
contributes its stripped value when the raw cell is non-empty and the
stripped value is non-empty. -/
def filesForRow (cells : List String) : List String :=
  cells.filterMap (fun v =>
    if v ≠ "" then
      let s := pyStrip v
      if s ≠ "" then some s else none
    else none)

/-- Result of `read_mapping_file`: the `(email, attachments)` tasks, the list
of all original data rows (note: appended for every row, including rows later
skipped for an invalid email), and the number of skip warnings logged. -/
structure MappingResult where
  emailTasks : List (String × List String)
  originalRows : List Row
  warnings : Nat
  deriving Repr, DecidableEq

/-- Body of the `for row in reader` loop of `read_mapping_file`: the row is
appended to `original_rows` first; an invalid email then logs a warning and
`continue`s; otherwise the `(stripped email, files_for_row)` task is
appended. -/
def readMappingStep (acc : MappingResult) (r : Row) : MappingResult :=
  let acc1 : MappingResult := { acc with originalRows := acc.originalRows ++ [r] }
  if !emailValid r.email then
    { acc1 with warnings := acc1.warnings + 1 }
  else
    { acc1 with emailTasks := acc1.emailTasks ++ [(pyStrip r.email, filesForRow r.attachmentCells)] }

/-- `read_mapping_file` over the parsed data rows (header handling, comment
filtering and column checks happen before this loop and are out of scope of
the claims about it). The loop itself raises no exception: invalid rows are
skipped, never fatal. -/
def readMappingFile (rows : List Row) : MappingResult :=
  rows.foldl readMappingStep ⟨[], [], 0⟩

/-- In `main`, each job carries its position `index` in `email_tasks`
(`for index, ... in enumerate(email_tasks)`), and when the job fails the row
`original_rows[row_index]` is appended to `failed_rows`, which
`write_failed_report` writes out as the re-submittable manifest. -/
def failureManifest (rows : List Row) (failedJobIndices : List Nat) : List (Option Row) :=
  failedJobIndices.map (fun i => (readMappingFile rows).originalRows.get? i)

/-! ## Connection manager (`get_smtp_connection`) and backoff policy -/

/-- `MAX_RETRIES = 3`: a module-level constant in both scripts, not an entry
of the configuration file. -/
def MAX_RETRIES : Nat := 3

/-- `CONNECTION_REFRESH_COUNT = 20`: a module-level constant in both
scripts, not an entry of the configuration file. -/
def CONNECTION_REFRESH_COUNT : Nat := 20

/-- `read_config` stores every non-comment `key = value` line of the config
file into a dictionary; a duplicate key keeps the last value. -/
def lookupConfig (cfg : List (String × String)) (k : String) : Option String :=
  (cfg.reverse.find? (fun p => p.1 = k)).map (fun p => p.2)

/-- The per-task `smtp_config` dictionary built in `main` (and in
`prepare_email_tasks`): exactly these eight keys and no others — in
particular no retry, backoff or refresh settings. -/
structure SmtpConfig where
  smtp_server : String
  smtp_port : Nat
  use_tls : Bool
  use_auth : Bool
  smtp_username : String
  smtp_password : String
  from_email : String
  bcc_recipients : List String
  deriving Repr, DecidableEq

/-- `msg['From']`: `smtp_config.get('smtp_username') if
smtp_config.get('use_auth') else smtp_config['from_email']`. -/
def fromAddress (cfg : SmtpConfig) : String :=
  if cfg.use_auth then cfg.smtp_username else cfg.from_email

/-- The `threading.local()` attributes used by `get_smtp_connection`:
`smtp` (the session, modelled by a numeric handle id) and `email_count`.
`none` models an absent attribute (`hasattr` false). -/
structure ThreadLocal where
  smtp : Option Nat
  email_count : Option Nat
  deriving Repr, DecidableEq

/-- Per-worker connection-manager state: the thread-local attributes, a
fresh-id supply for newly created sessions, and a count of every
`smtplib.SMTP(...)` constructor call (each one opens, or attempts to open, a
network connection). -/
structure ConnState where
  tl : ThreadLocal
  nextId : Nat
  connOpens : Nat
  deriving Repr, DecidableEq

/-- Result of `get_smtp_connection`: a session handle, or the generic
`Exception` raised after `MAX_RETRIES` failed creation attempts. -/
inductive GetResult where
  | conn (id : Nat)
  | fatal
  deriving Repr, DecidableEq

/-- The creation-retry loop inside `get_smtp_connection`
(`while retries < MAX_RETRIES`): `ok i` tells whether the `i`-th constructor
call of the run (counted globally from `base`) yields an authenticated
session. Returns (constructor calls made, success). -/
def connectAttempts (ok : Nat → Bool) : Nat → Nat → Nat × Bool
  | _, 0 => (0, false)
  | base, fuel + 1 =>
    if ok base then (1, true)
    else
      let r := connectAttempts ok (base + 1) fuel
      (r.1 + 1, r.2)

/-- The creation branch of `get_smtp_connection`: close any existing session
(best effort), reset `thread_local.email_count` to 0, retry creation up to
`MAX_RETRIES` times; on success store and return the new session, otherwise
raise. -/
def createConnection (ok : Nat → Bool) (s : ConnState) : ConnState × GetResult :=
  let r := connectAttempts ok s.connOpens MAX_RETRIES
  if r.2 then
    ({ tl := { smtp := some s.nextId, email_count := some 0 },
       nextId := s.nextId + 1, connOpens := s.connOpens + r.1 }, .conn s.nextId)
  else
    ({ s with
        tl := { smtp := s.tl.smtp, email_count := some 0 },
        connOpens := s.connOpens + r.1 }, .fatal)

/-- `get_smtp_connection(smtp_config, force_new)`: create a session when
forced or when either thread-local attribute is absent; otherwise increment
`email_count` and, once it reaches `CONNECTION_REFRESH_COUNT`, refresh by a
recursive call with `force_new=True` (inlined here as `createConnection`,
the recursion's only effect); else return the existing session. -/
def getSmtpConnection (ok : Nat → Bool) (s : ConnState) (forceNew : Bool) :
    ConnState × GetResult :=
  if forceNew || s.tl.smtp.isNone || s.tl.email_count.isNone then
    createConnection ok s
  else
    match s.tl.smtp, s.tl.email_count with
    | some id, some c =>
      if CONNECTION_REFRESH_COUNT ≤ c + 1 then
        createConnection ok { s with tl := { smtp := some id, email_count := some (c + 1) } }
      else
        ({ s with tl := { smtp := some id, email_count := some (c + 1) } }, .conn id)
    | _, _ => (s, .fatal)

/-- The sleeps performed by the connection creation-retry loop: after the
failed attempt with 0-based index k the code sets `retries = k + 1` and
sleeps `(2 ** retries) + random.random()` — even after the final failed
attempt, just before raising. -/
def connectRetryWaitsGo (ok : Nat → Bool) (jitter : Nat → ℚ) : Nat → Nat → List ℚ
  | _, 0 => []
  | k, fuel + 1 =>
    if ok k then []
    else (2 ^ (k + 1) + jitter (k + 1)) :: connectRetryWaitsGo ok jitter (k + 1) fuel

def connectRetryWaits (ok : Nat → Bool) (jitter : Nat → ℚ) : List ℚ :=
  connectRetryWaitsGo ok jitter 0 MAX_RETRIES

/-- The sleeps of the per-job send retry loop: after the k-th failed send
attempt the code sleeps `(2 ** retries) + random.random()` only when another
attempt remains (`retries < MAX_RETRIES`), then forces a new connection. -/
def sendRetryWaitsGo (ok : Nat → Bool) (jitter : Nat → ℚ) : Nat → Nat → List ℚ
  | _, 0 => []
  | k, fuel + 1 =>
    if ok k then []
    else if fuel = 0 then []
    else (2 ^ (k + 1) + jitter (k + 1)) :: sendRetryWaitsGo ok jitter (k + 1) fuel

def sendRetryWaits (ok : Nat → Bool) (jitter : Nat → ℚ) : List ℚ :=
  sendRetryWaitsGo ok jitter 0 MAX_RETRIES

/-- The backoff wait the spec describes, written from the spec's words for a
refinement comparison: `min(cap, base * 2^attempt) + jitter` with `base`,
`cap` and the attempt bound drawn from configuration. -/
def specBackoffWait (base cap : ℚ) (k : Nat) (jitter : ℚ) : ℚ :=
  min cap (base * 2 ^ k) + jitter

/-! ## Attachments of the plain variant (`send_email`, attachment loop) -/

/-- A prepared attachment path together with the oracles for the external
calls made on it: the `mimetypes.guess_type` result and whether opening,
reading and (for text) decoding the file succeeds at send time. -/
structure AttachmentFile where
  path : String
  basename : String
  guessedCtype : Option String
  guessedEncoding : Option String
  readable : Bool
  deriving Repr, DecidableEq

/-- `if ctype is None or encoding is not None: ctype =
'application/octet-stream'`. -/
def effectiveCtype (a : AttachmentFile) : String :=
  match a.guessedCtype, a.guessedEncoding with
  | none, _ => "application/octet-stream"
  | some _, some _ => "application/octet-stream"
  | some c, none => c

/-- The module-level names bound by the import list at the top of
`send_emails_with_attachments.py` that the attachment loop may reference as
MIME part constructors. `MIMEImage` and `MIMEAudio` are absent: the module
never imports them. -/
def importedMimeNames : List String :=
  ["MIMEApplication", "MIMEBase", "MIMEMultipart", "MIMEText"]

/-- Whether a name resolves at module scope; referencing an unbound name
raises `NameError`. -/
def mimeNameImported (n : String) : Bool :=
  importedMimeNames.any (fun m => decide (m = n))

/-- Outcome of one iteration of the attachment loop. -/
inductive AttachOutcome where
  | attached (filename : String)
  | errored (message : String)
  deriving Repr, DecidableEq

/-- One iteration of the attachment loop of the plain variant's
`send_email`: guess the MIME type, fall back to
`application/octet-stream` when there is no guess or there is a content
encoding, open the file and build the MIME part. The `image` and `audio`
branches reference `MIMEImage` and `MIMEAudio`; evaluating an unbound name
raises `NameError`. Every exception is caught and recorded as
`"Error attaching file {filename}: {e}"` and the loop continues
("# Continue with other attachments"). -/
def attachOne (a : AttachmentFile) : AttachOutcome :=
  let maintype := maintypeOf (effectiveCtype a)
  if !a.readable then
    .errored ("Error attaching file " ++ a.basename ++ ": cannot open or decode file")
  else if maintype = "text" then
    .attached a.basename
  else if maintype = "image" then
    if mimeNameImported "MIMEImage" then .attached a.basename
    else .errored ("Error attaching file " ++ a.basename ++ ": name MIMEImage is not defined")
  else if maintype = "audio" then
    if mimeNameImported "MIMEAudio" then .attached a.basename
    else .errored ("Error attaching file " ++ a.basename ++ ": name MIMEAudio is not defined")
  else
    .attached a.basename

/-- The attachment loop of the plain variant's `send_email`: successfully
attached filenames and error messages accumulate in order; an error never
aborts the loop or the job. -/
def processAttachments (files : List AttachmentFile) : List String × List String :=
  files.foldl
    (fun acc a =>
      match attachOne a with
      | .attached fn => (acc.1 ++ [fn], acc.2)
      | .errored m => (acc.1, acc.2 ++ [m]))
    ([], [])

/-- Projection used to state what `processAttachments` collects. -/
def attachedName : AttachOutcome → Option String
  | .attached fn => some fn
  | .errored _ => none

/-- Projection used to state what `processAttachments` collects. -/
def erroredMessage : AttachOutcome → Option String
  | .attached _ => none
  | .errored m => some m

/-! ## The send-with-retry loop and `send_email` (plain variant) -/

/-- How `send_email` finishes: returned `True`, returned `False`, or an
exception escaped it (the generic `Exception` raised by
`get_smtp_connection` is not in the loop's
`except (smtplib.SMTPException, socket.error, ConnectionError, OSError)`
tuple). -/
inductive SendResult where
  | sentTrue
  | returnedFalse
  | raisedExn
  deriving Repr, DecidableEq

/-- State threaded through the retry loop: the worker's connection-manager
state and the number of message transmissions attempted so far for this
job. -/
structure SendLoopState where
  conn : ConnState
  sendCalls : Nat
  deriving Repr, DecidableEq

/-- The retry loop of the plain variant's `send_email`
(`while retries < MAX_RETRIES`), with `fuel = MAX_RETRIES - retries`.
`sendOk n` is the outcome of the job's n-th transmission (0-based). Per
iteration: check the cancellation flag; acquire a connection (a fatal
acquire failure escapes as a generic exception); transmit; on a caught
transient error, either sleep/force a fresh connection and retry (a fatal
refresh failure is caught and ignored, leaving the stale session stored) or,
when `retries` reached `MAX_RETRIES`, return `False`. The fuel-0 case is
falling out of the `while` loop, which returns `None` (falsy); it is
unreachable from the entry point since `MAX_RETRIES > 0`. -/
def sendLoopGo (createOk sendOk : Nat → Bool) (shouldExit : Bool) :
    Nat → SendLoopState → SendResult × SendLoopState
  | 0, st => (.returnedFalse, st)
  | fuel + 1, st =>
    if shouldExit then (.returnedFalse, st)
    else
      match getSmtpConnection createOk st.conn false with
      | (cs, .fatal) => (.raisedExn, { st with conn := cs })
      | (cs, .conn _) =>
        let st1 : SendLoopState := { conn := cs, sendCalls := st.sendCalls + 1 }
        if sendOk st.sendCalls then (.sentTrue, st1)
        else if shouldExit then (.returnedFalse, st1)
        else if fuel = 0 then (.returnedFalse, st1)
        else
          let cs2 := (getSmtpConnection createOk st1.conn true).1
          sendLoopGo createOk sendOk shouldExit fuel { st1 with conn := cs2 }

/-- The single log record emitted by the test-mode branch of the plain
variant's `send_email`, as its list of `test_info` segments (the
`[i/total]` progress prefix is elided). -/
def testModeLog (cfg : SmtpConfig) (toEmail subject : String)
    (names errors : List String) : List String :=
  ["Would send email to " ++ toEmail,
   "From: " ++ fromAddress cfg]
  ++ (if cfg.bcc_recipients ≠ [] then ["Bcc: " ++ joinSep ", " cfg.bcc_recipients] else [])
  ++ ["Subject: " ++ subject,
      "Attachments: " ++ (if names = [] then "None" else joinSep ", " names)]
  ++ (if errors ≠ [] then ["Attachment Errors: " ++ joinSep "; " errors] else [])

/-- Everything observable about one `send_email` call. -/
structure SendTrace where
  result : SendResult
  attachmentNames : List String
  attachmentErrors : List String
  testLog : List String
  sendCalls : Nat
  connState : ConnState
  deriving Repr, DecidableEq

/-- `send_email` of `send_emails_with_attachments.py`: early-return on the
cancellation flag; build the message; run the attachment loop (errors are
only recorded); in test mode log the intended send and return `True`
without touching the network; otherwise run the retry loop. The
cancellation checks inside the attachment loop and before the test-mode log
re-test the same flag and are subsumed by the entry check for a flag that
is constant during the call. -/
def sendEmail (cfg : SmtpConfig) (toEmail subject body : String)
    (attachmentPaths : List AttachmentFile) (testMode shouldExit : Bool)
    (createOk sendOk : Nat → Bool) (cs : ConnState) : SendTrace :=
  if shouldExit then
    { result := .returnedFalse, attachmentNames := [], attachmentErrors := [],
      testLog := [], sendCalls := 0, connState := cs }
  else
    let na := processAttachments attachmentPaths
    if testMode then
      { result := .sentTrue, attachmentNames := na.1, attachmentErrors := na.2,
        testLog := testModeLog cfg toEmail subject na.1 na.2,
        sendCalls := 0, connState := cs }
    else
      let r := sendLoopGo createOk sendOk shouldExit MAX_RETRIES { conn := cs, sendCalls := 0 }
      { result := r.1, attachmentNames := na.1, attachmentErrors := na.2,
        testLog := [], sendCalls := r.2.sendCalls, connState := r.2.conn }

/-! ## Result aggregation in `main` (plain variant) -/

/-- What `main`'s result loop sees for one completed future:
`process_email` returned `(success, elapsed, row_index)`, or the task raised
and `future.result()` re-raises (`process_email` of the plain variant has no
try/except of its own). -/
inductive ProcOutcome where
  | returned (success : Bool) (elapsed : Nat)
  | raisedExn
  deriving Repr, DecidableEq

/-- `process_email` runs `send_email` and passes its boolean through; an
escaping exception surfaces at `future.result()`. -/
def procOutcomeOf (r : SendResult) (elapsed : Nat) : ProcOutcome :=
  match r with
  | .sentTrue => .returned true elapsed
  | .returnedFalse => .returned false elapsed
  | .raisedExn => .raisedExn

/-- The counters and manifest accumulated by `main`'s result loop. -/
structure Aggregate where
  successCount : Nat
  skippedCount : Nat
  failedRows : List (Option Row)
  totalEmailTime : Nat
  deriving Repr, DecidableEq

/-- One iteration of `main`'s `as_completed` loop: a success adds to
`success_count` and the time total; a `False` return or a raised exception
adds to `skipped_count` and appends `original_rows[row_index]` to
`failed_rows`. The handling is identical whether or not `should_exit` is
set — the flag only restricts the loop to futures already done; futures
cancelled before running contribute nothing to `completed`. -/
def aggregateStep (rows : List Row) (acc : Aggregate) (c : Nat × ProcOutcome) : Aggregate :=
  match c.2 with
  | .returned true t =>
    { acc with successCount := acc.successCount + 1, totalEmailTime := acc.totalEmailTime + t }
  | .returned false _ =>
    { acc with skippedCount := acc.skippedCount + 1, failedRows := acc.failedRows ++ [rows.get? c.1] }
  | .raisedExn =>
    { acc with skippedCount := acc.skippedCount + 1, failedRows := acc.failedRows ++ [rows.get? c.1] }

/-- The result loop of `main` over the completed futures, each tagged with
its `future_to_index` row index. -/
def aggregateResults (rows : List Row) (completed : List (Nat × ProcOutcome)) : Aggregate :=
  completed.foldl (aggregateStep rows) ⟨0, 0, [], 0⟩

/-- A completed future counts as a success exactly when `process_email`
returned `True`. -/
def isSuccessOutcome : ProcOutcome → Bool
  | .returned true _ => true
  | _ => false

/-- The time contribution of a completed future: only successes add their
elapsed time to `total_email_time`. -/
def outcomeTime : ProcOutcome → Nat
  | .returned true t => t
  | _ => 0

/-! ## PDF variant: attachment processing, send, pre-flight validation -/

/-- `process_attachment` of `send_emails_with_pdf_attachments.py`: guess the
MIME type (same octet-stream fallback), accept only `application/pdf`, and
process the binary attachment (reading the file may fail); anything else is
rejected with a type error. -/
inductive PdfAttachResult where
  | ok (filename : String)
  | fail (filename : String) (error : String)
  deriving Repr, DecidableEq

def processAttachmentPdf (a : AttachmentFile) : PdfAttachResult :=
  let ctype := effectiveCtype a
  if maintypeOf ctype = "application" ∧ subtypeOf ctype = "pdf" then
    if a.readable then .ok a.basename
    else .fail a.basename "Error processing PDF file: cannot read file"
  else
    .fail a.basename ("File type not supported: " ++ ctype ++ ". Only PDF files are allowed.")

/-- Error message recorded by `process_all_attachments` for one failed
attachment. -/
def pdfErrMsg : PdfAttachResult → Option String
  | .ok _ => none
  | .fail fn e => some ("Error attaching PDF file " ++ fn ++ ": " ++ e)

/-- Name recorded for one successfully processed attachment. -/
def pdfOkName : PdfAttachResult → Option String
  | .ok fn => some fn
  | .fail _ _ => none

/-- `process_all_attachments`: process each attachment in order; then the
email is aborted when all attachments failed, or when any attachment failed
(`any_attachments_failed`, set exactly when an error was recorded). An
empty attachment list succeeds trivially. -/
def processAllAttachments (files : List AttachmentFile) : Bool × List String × List String :=
  let acc := files.foldl
    (fun acc a =>
      match processAttachmentPdf a with
      | .ok fn => (acc.1 ++ [fn], acc.2)
      | .fail fn e => (acc.1, acc.2 ++ [("Error attaching PDF file " ++ fn ++ ": " ++ e)]))
    ([], [])
  if !files.isEmpty && acc.1.isEmpty then (false, acc.1, acc.2)
  else if !acc.2.isEmpty then (false, acc.1, acc.2)
  else (true, acc.1, acc.2)

/-- The single log record of `handle_test_mode` of the PDF variant, as its
`test_info` segments (progress prefix elided). -/
def pdfTestLog (cfg : SmtpConfig) (toEmail subject : String) (names : List String) :
    List String :=
  ["Would send email to " ++ toEmail,
   "From: " ++ fromAddress cfg]
  ++ (if cfg.bcc_recipients ≠ [] then ["Bcc: " ++ joinSep ", " cfg.bcc_recipients] else [])
  ++ ["Subject: " ++ subject,
      "Attachments: " ++ (if names = [] then "None" else joinSep ", " names)]

/-- `send_email` of `send_emails_with_pdf_attachments.py`: early-return on
the cancellation flag; process all attachments and abort the job (return
`False`) when that failed; in test mode log and return; otherwise
`send_email_with_retry`, whose loop is line-for-line the loop modelled by
`sendLoopGo` (with `smtp.sendmail` in place of `smtp.send_message`). -/
def sendEmailPdf (cfg : SmtpConfig) (toEmail subject body : String)
    (files : List AttachmentFile) (testMode shouldExit : Bool)
    (createOk sendOk : Nat → Bool) (cs : ConnState) : SendTrace :=
  if shouldExit then
    { result := .returnedFalse, attachmentNames := [], attachmentErrors := [],
      testLog := [], sendCalls := 0, connState := cs }
  else
    let r := processAllAttachments files
    if !r.1 then
      { result := .returnedFalse, attachmentNames := r.2.1, attachmentErrors := r.2.2,
        testLog := [], sendCalls := 0, connState := cs }
    else if testMode then
      { result := .sentTrue, attachmentNames := r.2.1, attachmentErrors := r.2.2,
        testLog := pdfTestLog cfg toEmail subject r.2.1, sendCalls := 0, connState := cs }
    else
      let l := sendLoopGo createOk sendOk shouldExit MAX_RETRIES { conn := cs, sendCalls := 0 }
      { result := l.1, attachmentNames := r.2.1, attachmentErrors := r.2.2,
        testLog := [], sendCalls := l.2.sendCalls, connState := l.2.conn }

/-- The filesystem and `mimetypes` oracles for the pre-flight validator and
the send-time attachment loop. -/
structure FileSystem where
  isFile : String → Bool
  size : String → Nat
  header5 : String → String
  guessedCtype : String → Option String
  guessedEncoding : String → Option String
  readable : String → Bool

/-- `validate_file` of the PDF variant: the file must exist, be non-empty
and start with the five bytes `%PDF-`. Returns (is_valid, error message).
The MIME info it also collects is unused by the verifier and elided. -/
def validateFile (fs : FileSystem) (path : String) : Bool × Option String :=
  if !fs.isFile path then
    (false, some ("File does not exist or is not a regular file: " ++ path))
  else if fs.size path = 0 then
    (false, some ("File is empty: " ++ path))
  else if fs.header5 path ≠ "%PDF-" then
    (false, some ("File is not a valid PDF (missing %PDF header): " ++ path))
  else
    (true, none)

/-- `'not a PDF document' in error_message` — the substring test
`verify_attachment_files` uses to split its counters. No message produced
by `validate_file` contains this substring, so `invalid_type_count` never
increments. -/
def mentionsNotPdfDocument (msg : String) : Bool :=
  decide ((msg.splitOn "not a PDF document").length > 1)

/-- Accumulator of `verify_attachment_files`: the `found_files` cache
(name-keyed, each name inserted at most once), the collected
`invalid_attachments` entries and the two counters. -/
structure VerifyState where
  found : List (String × Bool)
  invalidAttachments : List String
  notFoundCount : Nat
  invalidTypeCount : Nat
  deriving Repr, DecidableEq

/-- Python dict lookup on the `found_files` cache. -/
def lookupFound (l : List (String × Bool)) (k : String) : Option Bool :=
  (l.find? (fun p => decide (p.1 = k))).map (fun p => p.2)

/-- The inner `for attachment_file in attachment_files` loop of
`verify_attachment_files`: consult the cache, validate on a miss, record
the verdict, and collect the row's invalid files (annotated with the error;
a cached miss is annotated `file not found`). -/
def verifyRowStep (fs : FileSystem) (dir : String)
    (acc : VerifyState × List String) (f : String) : VerifyState × List String :=
  let st := acc.1
  let rowInvalid := acc.2
  match lookupFound st.found f with
  | some b =>
    if b then (st, rowInvalid)
    else (st, rowInvalid ++ [f ++ " (file not found)"])
  | none =>
    let v := validateFile fs (joinPath dir f)
    if v.1 then
      ({ st with found := st.found ++ [(f, true)] }, rowInvalid)
    else
      let msg := v.2.getD ""
      ({ st with
          found := st.found ++ [(f, false)],
          notFoundCount :=
            if mentionsNotPdfDocument msg then st.notFoundCount else st.notFoundCount + 1,
          invalidTypeCount :=
            if mentionsNotPdfDocument msg then st.invalidTypeCount + 1 else st.invalidTypeCount },
       rowInvalid ++ [f ++ " (" ++ msg ++ ")"])

/-- The outer `for index, (recipient_email, attachment_files)` loop of
`verify_attachment_files`: rows without attachments are skipped; a row with
any invalid file contributes one `invalid_attachments` entry (the row/
progress numbering of the logged text is elided). -/
def verifyTaskStep (fs : FileSystem) (dir : String)
    (st : VerifyState) (t : String × List String) : VerifyState :=
  if t.2.isEmpty then st
  else
    let r := t.2.foldl (verifyRowStep fs dir) (st, [])
    if r.2.isEmpty then r.1
    else
      { r.1 with
          invalidAttachments := r.1.invalidAttachments
            ++ ["Email to " ++ t.1 ++ " has invalid file(s): " ++ joinSep ", " r.2] }

/-- `verify_attachment_files`: run the checks over every task; when any
attachment was invalid, raise `ValueError` (the counts embedded in the
message are elided), otherwise return the cache. -/
def verifyAttachmentFiles (fs : FileSystem) (dir : String)
    (tasks : List (String × List String)) : Except String (List (String × Bool)) :=
  let st := tasks.foldl (verifyTaskStep fs dir) ⟨[], [], 0, 0⟩
  if st.invalidAttachments.isEmpty then .ok st.found
  else .error "Aborting: Found missing or invalid attachment file(s). Please fix attachment issues before running again."

/-- Build the `AttachmentFile` view of a path from the filesystem oracles
(used when the send phase re-reads a validated path). -/
def fileOf (fs : FileSystem) (path : String) : AttachmentFile :=
  { path := path, basename := basenameOf path,
    guessedCtype := fs.guessedCtype path, guessedEncoding := fs.guessedEncoding path,
    readable := fs.readable path }

/-- Observable outcome of one whole PDF-variant run: whether `main` aborted
with an error before dispatch, and how many message transmissions and
connection openings happened in total. -/
structure DispatchTrace where
  result : Except String Unit
  sendCalls : Nat
  connOpens : Nat

/-- The dispatch phase of the PDF variant's `main` (prepare_email_tasks +
process_emails_in_parallel), reduced to its network effects: every task is
processed by `send_email`; the thread pool is modelled sequentially, which
preserves the total counts of transmissions and connection openings. -/
def processTasksPdf (fs : FileSystem) (dir : String) (cfg : SmtpConfig)
    (subject body : String) (testMode : Bool) (createOk sendOk : Nat → Bool)
    (tasks : List (String × List String)) : Nat × ConnState :=
  tasks.foldl
    (fun acc t =>
      let files := t.2.map (fun f => fileOf fs (joinPath dir f))
      let T := sendEmailPdf cfg t.1 subject body files testMode false createOk
        (fun n => sendOk (acc.1 + n)) acc.2
      (acc.1 + T.sendCalls, T.connState))
    (0, ⟨⟨none, none⟩, 0, 0⟩)

/-- `main` of the PDF variant after job preparation: verify every
attachment file, aborting the whole run before any task is prepared or
submitted when verification found an invalid file; otherwise dispatch. -/
def mainDispatchPdf (fs : FileSystem) (dir : String) (cfg : SmtpConfig)
    (subject body : String) (testMode : Bool) (createOk sendOk : Nat → Bool)
    (tasks : List (String × List String)) : DispatchTrace :=
  match verifyAttachmentFiles fs dir tasks with
  | .error e => { result := .error e, sendCalls := 0, connOpens := 0 }
  | .ok _ =>
    let p := processTasksPdf fs dir cfg subject body testMode createOk sendOk tasks
    { result := .ok (), sendCalls := p.1, connOpens := p.2.connOpens }

/-! ## Concrete fixtures used by counterexamples and witnesses -/

/-- First data row of the C1 failing input: its email cell has no `@`, so
`read_mapping_file` skips it, yet it is stored in `original_rows`. -/
def rowInvalid : Row := ⟨"not-an-address", ["a.pdf"]⟩

/-- Second data row of the C1 failing input: a valid recipient; it becomes
the run's only job, at job index `0`. -/
def rowValid : Row := ⟨"user@example.com", ["b.pdf"]⟩

/-- The C1 failing input: one invalid-recipient row followed by one valid
row. -/
def c1Rows : List Row := [rowInvalid, rowValid]

/-- A concrete parsed configuration that tries to configure the retry
policy; `read_config` stores the entries, but no code ever reads them. -/
def c7Config : List (String × String) :=
  [("smtp_server", "smtp.example.com"), ("max_retries", "10"), ("backoff_cap", "5")]

/-- A concrete smtp_config dictionary. -/
def cfg0 : SmtpConfig :=
  ⟨"smtp.example.com", 587, true, true, "sender@example.com", "pw", "from@example.com", []⟩

/-- A worker's connection state before its first acquire: neither
thread-local attribute exists. -/
def cs0 : ConnState := ⟨⟨none, none⟩, 0, 0⟩

/-- Two valid rows used by the cancellation counterexample: job 0 completes
successfully, job 1 observes the cancellation flag. -/
def c3Rows : List Row := [⟨"a@example.com", []⟩, ⟨"b@example.com", []⟩]

/-- A JPEG attachment as the plain variant sees it at send time:
`mimetypes.guess_type` yields `image/jpeg` with no encoding, and the file
itself is readable. -/
def jpgAttachment : AttachmentFile :=
  ⟨"files/pic.jpg", "pic.jpg", some "image/jpeg", none, true⟩

/-- An MP3 attachment: guessed `audio/mpeg`, no encoding, readable. -/
def mp3Attachment : AttachmentFile :=
  ⟨"files/song.mp3", "song.mp3", some "audio/mpeg", none, true⟩

/-- A text file attachment: guessed `text/plain`, no encoding, readable.
Not a PDF, so the PDF variant's `process_attachment` rejects it. -/
def txtAttachment : AttachmentFile :=
  ⟨"files/note.txt", "note.txt", some "text/plain", none, true⟩

/-- A filesystem on which only `files/b.pdf` exists (a well-formed PDF). -/
def fsC2 : FileSystem :=
  { isFile := fun p => decide (p = "files/b.pdf"),
    size := fun _ => 4,
    header5 := fun _ => "%PDF-",
    guessedCtype := fun _ => some "application/pdf",
    guessedEncoding := fun _ => none,
    readable := fun _ => true }

/-! ## Helper lemmas -/

theorem readMappingFile_go (rows : List Row) (acc : MappingResult) :
    rows.foldl readMappingStep acc =
      { emailTasks := acc.emailTasks ++ (rows.filter (fun r => emailValid r.email)).map
          (fun r => (pyStrip r.email, filesForRow r.attachmentCells))
      , originalRows := acc.originalRows ++ rows
      , warnings := acc.warnings + (rows.filter (fun r => !emailValid r.email)).length } := by
  induction rows generalizing acc with
  | nil => simp
  | cons r rs ih =>
    simp only [List.foldl_cons, ih, readMappingStep]
    by_cases h : emailValid r.email = true
    · simp [h]
    · simp only [Bool.not_eq_true] at h
      simp [h]
      omega

theorem connectAttempts_fst_le (ok : Nat → Bool) (base fuel : Nat) :
    (connectAttempts ok base fuel).1 ≤ fuel := by
  induction fuel generalizing base with
  | zero => simp [connectAttempts]
  | succ n ih =>
    simp only [connectAttempts]
    by_cases h : ok base = true
    · simp [h]
    · simp only [h, if_false]
      exact Nat.succ_le_succ (ih (base + 1))

theorem processAttachments_go (files : List AttachmentFile) (acc : List String × List String) :
    files.foldl
        (fun acc a =>
          match attachOne a with
          | .attached fn => (acc.1 ++ [fn], acc.2)
          | .errored m => (acc.1, acc.2 ++ [m]))
        acc
      = (acc.1 ++ files.filterMap (fun a => attachedName (attachOne a)),
         acc.2 ++ files.filterMap (fun a => erroredMessage (attachOne a))) := by
  induction files generalizing acc with
  | nil => simp
  | cons a rest ih =>
    simp only [List.foldl_cons, List.filterMap_cons]
    cases h : attachOne a <;> simp [h, ih, attachedName, erroredMessage]

theorem processAttachments_eq (files : List AttachmentFile) :
    processAttachments files
      = (files.filterMap (fun a => attachedName (attachOne a)),
         files.filterMap (fun a => erroredMessage (attachOne a))) := by
  simpa [processAttachments] using processAttachments_go files ([], [])

theorem processAllAttachments_go (files : List AttachmentFile) (acc : List String × List String) :
    files.foldl
        (fun acc a =>
          match processAttachmentPdf a with
          | .ok fn => (acc.1 ++ [fn], acc.2)
          | .fail fn e => (acc.1, acc.2 ++ [("Error attaching PDF file " ++ fn ++ ": " ++ e)]))
        acc
      = (acc.1 ++ files.filterMap (fun a => pdfOkName (processAttachmentPdf a)),
         acc.2 ++ files.filterMap (fun a => pdfErrMsg (processAttachmentPdf a))) := by
  induction files generalizing acc with
  | nil => simp
  | cons a rest ih =>
    simp only [List.foldl_cons, List.filterMap_cons]
    cases h : processAttachmentPdf a <;> simp [h, ih, pdfOkName, pdfErrMsg]

/-- When some attachment of the list fails PDF processing,
`process_all_attachments` reports failure with a non-empty error list. -/
theorem processAllAttachments_fail (files : List AttachmentFile) (a : AttachmentFile)
    (ha : a ∈ files) (hfail : (pdfErrMsg (processAttachmentPdf a)).isSome) :
    (processAllAttachments files).1 = false
      ∧ (processAllAttachments files).2.2 ≠ [] := by
  have herr : files.filterMap (fun a => pdfErrMsg (processAttachmentPdf a)) ≠ [] := by
    intro h
    rw [List.filterMap_eq_nil_iff] at h
    have := h a ha
    rw [this] at hfail
    simp at hfail
  have hne : files ≠ [] := by
    intro h
    subst h
    simp at ha
  constructor
  · simp only [processAllAttachments, processAllAttachments_go, List.nil_append]
    by_cases hn : (files.filterMap (fun a => pdfOkName (processAttachmentPdf a))).isEmpty
    · simp [hn, List.isEmpty_iff, hne]
    · simp only [hn, Bool.and_false, Bool.false_and, Bool.and_self]
      simp [List.isEmpty_iff, herr, hne]
  · simp only [processAllAttachments, processAllAttachments_go, List.nil_append]
    by_cases hn : (files.filterMap (fun a => pdfOkName (processAttachmentPdf a))).isEmpty
    · simp [hn, List.isEmpty_iff, hne, herr]
    · simp only [hn, Bool.and_false, Bool.false_and, Bool.and_self]
      simp [List.isEmpty_iff, herr, hne]

/-- An acquire whose first creation attempt would succeed never raises. -/
theorem getSmtpConnection_ok (createOk : Nat → Bool) (cs : ConnState)
    (h : createOk cs.connOpens = true) :
    ∃ cs2 id, getSmtpConnection createOk cs false = (cs2, .conn id) := by
  have hca : ∀ s : ConnState, s.connOpens = cs.connOpens →
      createConnection createOk s
        = ({ tl := { smtp := some s.nextId, email_count := some 0 },
             nextId := s.nextId + 1, connOpens := s.connOpens + 1 }, .conn s.nextId) := by
    intro s hs
    have hc1 : connectAttempts createOk s.connOpens MAX_RETRIES = (1, true) := by
      simp [MAX_RETRIES, connectAttempts, hs, h]
    simp [createConnection, hc1]
  obtain ⟨⟨sm, ec⟩, nid, co⟩ := cs
  dsimp only at h hca ⊢
  cases sm with
  | none =>
    refine ⟨{ tl := { smtp := some nid, email_count := some 0 },
              nextId := nid + 1, connOpens := co + 1 }, nid, ?_⟩
    unfold getSmtpConnection
    rw [if_pos (by simp)]
    exact hca ⟨⟨none, ec⟩, nid, co⟩ rfl
  | some i =>
    cases ec with
    | none =>
      refine ⟨{ tl := { smtp := some nid, email_count := some 0 },
                nextId := nid + 1, connOpens := co + 1 }, nid, ?_⟩
      unfold getSmtpConnection
      rw [if_pos (by simp)]
      exact hca ⟨⟨some i, none⟩, nid, co⟩ rfl
    | some c =>
      by_cases hth : CONNECTION_REFRESH_COUNT ≤ c + 1
      · refine ⟨{ tl := { smtp := some nid, email_count := some 0 },
                  nextId := nid + 1, connOpens := co + 1 }, nid, ?_⟩
        unfold getSmtpConnection
        rw [if_neg (by simp)]
        dsimp only
        rw [if_pos hth]
        exact hca ⟨⟨some i, some (c + 1)⟩, nid, co⟩ rfl
      · refine ⟨⟨⟨some i, some (c + 1)⟩, nid, co⟩, i, ?_⟩
        unfold getSmtpConnection
        rw [if_neg (by simp)]
        dsimp only
        rw [if_neg hth]

/-- One unfolding of the retry loop, with the `let` bindings expanded. -/
theorem sendLoopGo_succ (createOk sendOk : Nat → Bool) (ex : Bool) (n : Nat)
    (st : SendLoopState) :
    sendLoopGo createOk sendOk ex (n + 1) st
      = if ex then (.returnedFalse, st)
        else
          match getSmtpConnection createOk st.conn false with
          | (cs, .fatal) => (.raisedExn, { st with conn := cs })
          | (cs, .conn _) =>
            if sendOk st.sendCalls then
              (.sentTrue, { conn := cs, sendCalls := st.sendCalls + 1 })
            else if ex then
              (.returnedFalse, { conn := cs, sendCalls := st.sendCalls + 1 })
            else if n = 0 then
              (.returnedFalse, { conn := cs, sendCalls := st.sendCalls + 1 })
            else
              sendLoopGo createOk sendOk ex n
                { conn := (getSmtpConnection createOk cs true).1,
                  sendCalls := st.sendCalls + 1 } := by
  rw [sendLoopGo]

/-- The retry loop never makes more transmission attempts than it has
fuel. -/
theorem sendLoopGo_calls_le (createOk sendOk : Nat → Bool) (ex : Bool)
    (fuel : Nat) (st : SendLoopState) :
    (sendLoopGo createOk sendOk ex fuel st).2.sendCalls ≤ st.sendCalls + fuel := by
  induction fuel generalizing st with
  | zero => simp [sendLoopGo]
  | succ n ih =>
    rw [sendLoopGo_succ]
    by_cases hex : ex = true
    · simp [hex]
    · simp only [Bool.not_eq_true] at hex
      subst hex
      simp only [Bool.false_eq_true, if_false]
      rcases hg : getSmtpConnection createOk st.conn false with ⟨cs, r⟩
      cases r with
      | fatal => simp
      | conn id =>
        dsimp only
        by_cases hs : sendOk st.sendCalls = true
        · simp [hs]
        · rw [if_neg (by simp [hs])]
          by_cases hf : n = 0
          · rw [if_pos hf]
            simp
          · rw [if_neg hf]
            have h2 := ih ⟨(getSmtpConnection createOk cs true).1, st.sendCalls + 1⟩
            dsimp only at h2
            omega

/-- With the cancellation flag clear, the retry loop returns `False` only
when it has burnt all its fuel on transmissions that all failed. -/
theorem sendLoopGo_false_exhausts (createOk sendOk : Nat → Bool)
    (fuel : Nat) (st : SendLoopState) (hfuel : 1 ≤ fuel)
    (hres : (sendLoopGo createOk sendOk false fuel st).1 = .returnedFalse) :
    (sendLoopGo createOk sendOk false fuel st).2.sendCalls = st.sendCalls + fuel
      ∧ ∀ k, k < fuel → sendOk (st.sendCalls + k) = false := by
  induction fuel generalizing st with
  | zero => omega
  | succ n ih =>
    rw [sendLoopGo_succ] at hres ⊢
    simp only [Bool.false_eq_true, if_false] at hres ⊢
    rcases hg : getSmtpConnection createOk st.conn false with ⟨cs, r⟩
    rw [hg] at hres
    cases r with
    | fatal => simp at hres
    | conn id =>
      dsimp only at hres ⊢
      by_cases hs : sendOk st.sendCalls = true
      · rw [if_pos hs] at hres
        simp at hres
      · rw [if_neg (by simp [hs])] at hres ⊢
        by_cases hf : n = 0
        · rw [if_pos hf] at hres ⊢
          refine ⟨by simp [hf], ?_⟩
          intro k hk
          have hk0 : k = 0 := by omega
          subst hk0
          simpa [Bool.not_eq_true] using hs
        · rw [if_neg hf] at hres ⊢
          have hn1 : 1 ≤ n := Nat.one_le_iff_ne_zero.mpr hf
          obtain ⟨hcalls, hall⟩ := ih _ hn1 hres
          dsimp only at hcalls hall
          refine ⟨by rw [hcalls]; omega, ?_⟩
          intro k hk
          cases k with
          | zero => simpa [Bool.not_eq_true] using hs
          | succ j =>
            have hj := hall j (by omega)
            have harg : st.sendCalls + (j + 1) = st.sendCalls + 1 + j := by omega
            rw [harg]
            exact hj

/-- With a reachable server and a first transmission that succeeds, a
non-test, non-cancelled `send_email` reports success after exactly one
transmission, whatever the attachment errors were. -/
theorem sendEmail_first_attempt_success (cfg : SmtpConfig) (toEmail subject body : String)
    (files : List AttachmentFile) (createOk sendOk : Nat → Bool) (cs : ConnState)
    (hcreate : createOk cs.connOpens = true) (hsend : sendOk 0 = true) :
    (sendEmail cfg toEmail subject body files false false createOk sendOk cs).result = .sentTrue
      ∧ (sendEmail cfg toEmail subject body files false false createOk sendOk cs).sendCalls = 1 := by
  obtain ⟨cs2, id, hg⟩ := getSmtpConnection_ok createOk cs hcreate
  have : sendLoopGo createOk sendOk false MAX_RETRIES { conn := cs, sendCalls := 0 }
      = (.sentTrue, { conn := cs2, sendCalls := 1 }) := by
    show sendLoopGo createOk sendOk false 3 { conn := cs, sendCalls := 0 } = _
    unfold sendLoopGo
    simp [hg, hsend]
  simp [sendEmail, this]

/-! ## Claim theorems -/

/-- C9: a row whose email cell is empty or lacks `@` is excluded from the
job set with one warning and without aborting the run, every other row
becomes a job (stripped email plus its attachment cells), and every row —
valid or not — is retained in `original_rows`. -/
theorem mapping_skips_invalid_recipients (rows : List Row) :
    (readMappingFile rows).emailTasks
        = (rows.filter (fun r => emailValid r.email)).map
            (fun r => (pyStrip r.email, filesForRow r.attachmentCells))
      ∧ (readMappingFile rows).originalRows = rows
      ∧ (readMappingFile rows).warnings
          = (rows.filter (fun r => !emailValid r.email)).length := by
  refine ⟨?_, ?_, ?_⟩ <;> simp [readMappingFile, readMappingFile_go]

/-- C1: at the failing input the only job (index 0) was prepared from the
second CSV row, but when that job fails the manifest receives
`original_rows[0]` — the excluded invalid-recipient row — instead of the
failed job's own row: job indices count only valid rows while
`original_rows` retains every row, so the two indexings disagree as soon as
a row was excluded. -/
theorem manifest_misaligned_after_exclusion :
    (readMappingFile c1Rows).emailTasks = [("user@example.com", ["b.pdf"])]
      ∧ failureManifest c1Rows [0] = [some rowInvalid]
      ∧ rowInvalid ≠ rowValid := by
  refine ⟨by decide, by decide, by decide⟩

/-- C5: on a reuse acquire below the refresh threshold, `email_count` (the
handle's send counter) is incremented and the same session is returned;
once the counter would reach `CONNECTION_REFRESH_COUNT` — i.e. after
`CONNECTION_REFRESH_COUNT` sends on the handle, whose counter then reads
`CONNECTION_REFRESH_COUNT - 1` — the next acquire returns a freshly created
session (a new id from the allocator) whose counter is 0, not a
continuation of the old count. -/
theorem connection_refresh_threshold (s : ConnState) (id c : Nat) (ok : Nat → Bool)
    (htl : s.tl = { smtp := some id, email_count := some c })
    (hok : ∀ n, ok n = true) :
    (c + 1 < CONNECTION_REFRESH_COUNT →
      getSmtpConnection ok s false
        = ({ s with tl := { smtp := some id, email_count := some (c + 1) } }, .conn id))
    ∧ (CONNECTION_REFRESH_COUNT ≤ c + 1 →
      getSmtpConnection ok s false
        = ({ tl := { smtp := some s.nextId, email_count := some 0 },
             nextId := s.nextId + 1, connOpens := s.connOpens + 1 }, .conn s.nextId)) := by
  have hca : connectAttempts ok s.connOpens MAX_RETRIES = (1, true) := by
    simp [MAX_RETRIES, connectAttempts, hok]
  constructor
  · intro hlt
    simp [getSmtpConnection, htl, Nat.not_le.mpr hlt]
  · intro hge
    simp [getSmtpConnection, htl, hge, createConnection, hca]

theorem connection_refresh_threshold_witness :
    getSmtpConnection (fun _ => true) ⟨⟨some 0, some 3⟩, 1, 1⟩ false
        = (⟨⟨some 0, some 4⟩, 1, 1⟩, .conn 0)
      ∧ getSmtpConnection (fun _ => true) ⟨⟨some 0, some 19⟩, 1, 1⟩ false
        = (⟨⟨some 1, some 0⟩, 2, 2⟩, .conn 1) :=
  ⟨(connection_refresh_threshold ⟨⟨some 0, some 3⟩, 1, 1⟩ 0 3 _ rfl (fun _ => rfl)).1
      (by decide),
   (connection_refresh_threshold ⟨⟨some 0, some 19⟩, 1, 1⟩ 0 19 _ rfl (fun _ => rfl)).2
      (by decide)⟩

/-- C7 (counterexample): with `max_retries = 10` and a backoff cap of 5 in
the configuration, the connection-retry loop still makes exactly
`MAX_RETRIES = 3` constructor attempts and sleeps 2, 4, 8 seconds (at zero
jitter): the third wait exceeds the configured cap, which the claimed
formula `min(cap, base * 2^k) + jitter` would forbid, and the attempt count
ignores the configured value. -/
theorem backoff_ignores_configuration :
    lookupConfig c7Config "max_retries" = some "10"
      ∧ lookupConfig c7Config "backoff_cap" = some "5"
      ∧ (connectAttempts (fun _ => false) 0 MAX_RETRIES).1 = 3
      ∧ connectRetryWaits (fun _ => false) (fun _ => 0) = [2, 4, 8]
      ∧ specBackoffWait 1 5 3 0 ≠ 8 := by
  refine ⟨by decide, by decide, by decide, ?_, by norm_num [specBackoffWait]⟩
  show connectRetryWaitsGo _ _ 0 MAX_RETRIES = _
  norm_num [MAX_RETRIES, connectRetryWaitsGo]

/-- C7 (amended): after the k-th failed attempt the wait is exactly
`2^k + jitter(k)` with jitter in [0,1) — base 1, no cap — for
k = 1, 2, 3 in connection creation (which sleeps even before raising) and
k = 1, 2 in the per-job send loop (which does not sleep before giving up);
the attempt bound is the hard-coded constant `MAX_RETRIES = 3`, not a
configuration value. -/
theorem backoff_schedule (jitter : Nat → ℚ)
    (hj : ∀ k, 0 ≤ jitter k ∧ jitter k < 1) :
    connectRetryWaits (fun _ => false) jitter
        = [2 ^ 1 + jitter 1, 2 ^ 2 + jitter 2, 2 ^ 3 + jitter 3]
      ∧ sendRetryWaits (fun _ => false) jitter
        = [2 ^ 1 + jitter 1, 2 ^ 2 + jitter 2]
      ∧ (∀ ok base, (connectAttempts ok base MAX_RETRIES).1 ≤ MAX_RETRIES)
      ∧ (∀ k, (2 ^ k : ℚ) ≤ 2 ^ k + jitter k ∧ (2 ^ k + jitter k : ℚ) < 2 ^ k + 1) := by
  refine ⟨?_, ?_, fun ok base => connectAttempts_fst_le ok base MAX_RETRIES, fun k => ?_⟩
  · show connectRetryWaitsGo _ _ 0 MAX_RETRIES = _
    norm_num [MAX_RETRIES, connectRetryWaitsGo]
  · show sendRetryWaitsGo _ _ 0 MAX_RETRIES = _
    norm_num [MAX_RETRIES, sendRetryWaitsGo]
  · have h := hj k
    constructor <;> linarith [h.1, h.2]

theorem backoff_schedule_witness :
    connectRetryWaits (fun _ => false) (fun _ => (1 : ℚ) / 2) = [5 / 2, 9 / 2, 17 / 2] := by
  have h := backoff_schedule (fun _ => (1 : ℚ) / 2) (fun k => by norm_num)
  rw [h.1]
  norm_num

/-- C8: with test mode on and the cancellation flag clear, `send_email`
returns success for every job while performing no network I/O — no
transmission happens and the connection-manager state, including its count
of opened connections, is untouched — and its single test-mode log record
contains the recipient, the sender, the subject and the attachment list. -/
theorem test_mode_no_network (cfg : SmtpConfig) (toEmail subject body : String)
    (files : List AttachmentFile) (createOk sendOk : Nat → Bool) (cs : ConnState) :
    (sendEmail cfg toEmail subject body files true false createOk sendOk cs).result = .sentTrue
      ∧ (sendEmail cfg toEmail subject body files true false createOk sendOk cs).sendCalls = 0
      ∧ (sendEmail cfg toEmail subject body files true false createOk sendOk cs).connState = cs
      ∧ ("Would send email to " ++ toEmail)
          ∈ (sendEmail cfg toEmail subject body files true false createOk sendOk cs).testLog
      ∧ ("From: " ++ fromAddress cfg)
          ∈ (sendEmail cfg toEmail subject body files true false createOk sendOk cs).testLog
      ∧ ("Subject: " ++ subject)
          ∈ (sendEmail cfg toEmail subject body files true false createOk sendOk cs).testLog
      ∧ ("Attachments: " ++ (if (processAttachments files).1 = [] then "None"
            else joinSep ", " (processAttachments files).1))
          ∈ (sendEmail cfg toEmail subject body files true false createOk sendOk cs).testLog := by
  have hlog : (sendEmail cfg toEmail subject body files true false createOk sendOk cs).testLog
      = testModeLog cfg toEmail subject (processAttachments files).1
          (processAttachments files).2 := rfl
  refine ⟨rfl, rfl, rfl, ?_, ?_, ?_, ?_⟩ <;> rw [hlog] <;> unfold testModeLog <;>
    simp [List.mem_append]

/-- C4 (amended): per job at most `MAX_RETRIES` transmissions ever happen,
and — absent cancellation, test mode and pre-send attachment aborts — when
`send_email` returns `False` it has made exactly `MAX_RETRIES`
transmissions, all unsuccessful. (The other failure mode, an escaping
fatal connection exception, reaches the manifest with fewer than
`MAX_RETRIES` transmissions; see the counterexample.) -/
theorem bounded_retry (cfg : SmtpConfig) (toEmail subject body : String)
    (files : List AttachmentFile) (createOk sendOk : Nat → Bool) (cs : ConnState) :
    (sendEmail cfg toEmail subject body files false false createOk sendOk cs).sendCalls
        ≤ MAX_RETRIES
      ∧ ((sendEmail cfg toEmail subject body files false false createOk sendOk cs).result
            = .returnedFalse →
          (sendEmail cfg toEmail subject body files false false createOk sendOk cs).sendCalls
              = MAX_RETRIES
            ∧ ∀ k, k < MAX_RETRIES → sendOk k = false) := by
  have h1 : (sendEmail cfg toEmail subject body files false false createOk sendOk cs).sendCalls
      = (sendLoopGo createOk sendOk false MAX_RETRIES ⟨cs, 0⟩).2.sendCalls := rfl
  have h2 : (sendEmail cfg toEmail subject body files false false createOk sendOk cs).result
      = (sendLoopGo createOk sendOk false MAX_RETRIES ⟨cs, 0⟩).1 := rfl
  constructor
  · rw [h1]
    simpa using sendLoopGo_calls_le createOk sendOk false MAX_RETRIES ⟨cs, 0⟩
  · intro hres
    rw [h2] at hres
    obtain ⟨hc, hall⟩ :=
      sendLoopGo_false_exhausts createOk sendOk MAX_RETRIES ⟨cs, 0⟩ (by decide) hres
    rw [h1, hc]
    exact ⟨by simp, fun k hk => by simpa using hall k hk⟩

theorem bounded_retry_witness :
    (sendEmail cfg0 "user@example.com" "subj" "hello" [] false false
        (fun _ => true) (fun _ => false) cs0).result = .returnedFalse
      ∧ (sendEmail cfg0 "user@example.com" "subj" "hello" [] false false
          (fun _ => true) (fun _ => false) cs0).sendCalls = MAX_RETRIES :=
  ⟨by decide,
   ((bounded_retry cfg0 "user@example.com" "subj" "hello" []
      (fun _ => true) (fun _ => false) cs0).2 (by decide)).1⟩

/-- C4 (counterexample): with the server unreachable at the worker's first
acquire, the first iteration's `get_smtp_connection` raises a generic
exception that the loop's `except` tuple does not catch: `send_email`
raises after zero transmissions, and `main`'s result loop then counts the
job as skipped/failed and appends its row to the failure manifest — a job
reported failed without `MAX_RETRIES` unsuccessful send attempts. -/
theorem job_fails_without_send_attempts :
    (sendEmail cfg0 "user@example.com" "subj" "hello" [] false false
        (fun _ => false) (fun _ => true) cs0).result = .raisedExn
      ∧ (sendEmail cfg0 "user@example.com" "subj" "hello" [] false false
          (fun _ => false) (fun _ => true) cs0).sendCalls = 0
      ∧ aggregateResults [rowValid] [(0, procOutcomeOf .raisedExn 0)]
          = ⟨0, 1, [some rowValid], 0⟩ := by
  refine ⟨by decide, by decide, by decide⟩

/-- C3 (counterexample): with the cancellation flag set, `send_email`
returns `False` for the job it abandons; `main`'s result loop counts that
job in `skipped_count` — the same counter reported as "Emails
skipped/failed" — and appends its original row to the failure manifest,
while the other job's completed success is retained. The distinction the
claim promises does not exist in the aggregation. -/
theorem cancelled_job_counted_as_failure :
    (sendEmail cfg0 "b@example.com" "subj" "hello" [] false true
        (fun _ => true) (fun _ => true) cs0).result = .returnedFalse
      ∧ aggregateResults c3Rows [(0, .returned true 5), (1, .returned false 0)]
          = ⟨1, 1, [some ⟨"b@example.com", []⟩], 5⟩
      ∧ some (⟨"b@example.com", []⟩ : Row)
          ∈ (aggregateResults c3Rows
              [(0, .returned true 5), (1, .returned false 0)]).failedRows := by
  refine ⟨by decide, by decide, by decide⟩

theorem aggregateResults_spec (rows : List Row) (completed : List (Nat × ProcOutcome)) :
    (aggregateResults rows completed).successCount
        = (completed.filter (fun c => isSuccessOutcome c.2)).length
      ∧ (aggregateResults rows completed).skippedCount
        = (completed.filter (fun c => !isSuccessOutcome c.2)).length
      ∧ (aggregateResults rows completed).failedRows
        = (completed.filter (fun c => !isSuccessOutcome c.2)).map (fun c => rows.get? c.1)
      ∧ (aggregateResults rows completed).totalEmailTime
        = (completed.map (fun c => outcomeTime c.2)).sum := by
  induction completed using List.reverseRecOn with
  | nil => simp [aggregateResults]
  | append_singleton cs c ih =>
    obtain ⟨h1, h2, h3, h4⟩ := ih
    have hfold : aggregateResults rows (cs ++ [c])
        = aggregateStep rows (aggregateResults rows cs) c := by
      simp [aggregateResults, List.foldl_append]
    rcases c with ⟨i, o⟩
    cases o with
    | returned b t =>
      cases b <;>
        simp [hfold, aggregateStep, h1, h2, h3, h4, isSuccessOutcome, outcomeTime,
          List.filter_append, List.map_append, List.sum_append]
    | raisedExn =>
      simp [hfold, aggregateStep, h1, h2, h3, h4, isSuccessOutcome, outcomeTime,
        List.filter_append, List.map_append, List.sum_append]

/-- C3 (amended): a job that observes the cancellation flag returns
not-sent with zero transmissions, but the aggregation merges it with
failures: `skipped_count` counts exactly the non-successes (cancelled jobs
included) and each non-success contributes its original row to the failure
manifest. Already-completed successes are retained: `success_count` counts
them and their elapsed times accumulate. Futures cancelled before running
are absent from the completed list and contribute nothing. -/
theorem cancellation_merged_with_failures :
    (∀ (cfg : SmtpConfig) (toEmail subject body : String) (files : List AttachmentFile)
        (testMode : Bool) (createOk sendOk : Nat → Bool) (cs : ConnState),
        sendEmail cfg toEmail subject body files testMode true createOk sendOk cs
          = { result := .returnedFalse, attachmentNames := [], attachmentErrors := [],
              testLog := [], sendCalls := 0, connState := cs })
      ∧ (∀ (rows : List Row) (completed : List (Nat × ProcOutcome)),
          (aggregateResults rows completed).skippedCount
              = (completed.filter (fun c => !isSuccessOutcome c.2)).length
            ∧ (aggregateResults rows completed).failedRows
              = (completed.filter (fun c => !isSuccessOutcome c.2)).map
                  (fun c => rows.get? c.1)
            ∧ (aggregateResults rows completed).successCount
              = (completed.filter (fun c => isSuccessOutcome c.2)).length
            ∧ (aggregateResults rows completed).totalEmailTime
              = (completed.map (fun c => outcomeTime c.2)).sum) := by
  refine ⟨fun cfg toEmail subject body files testMode createOk sendOk cs => rfl,
    fun rows completed => ?_⟩
  obtain ⟨h1, h2, h3, h4⟩ := aggregateResults_spec rows completed
  exact ⟨h2, h3, h1, h4⟩

/-- C6 (counterexample): in the plain variant a send-time attachment error
(here: a JPEG, whose `MIMEImage` constructor name is unbound) does not
abort the job: the error is only recorded, the email goes out on the first
transmission without the attachment, and the job is reported succeeded —
not failed. -/
theorem plain_job_survives_attachment_error :
    (sendEmail cfg0 "user@example.com" "subj" "hello" [jpgAttachment] false false
        (fun _ => true) (fun _ => true) cs0).result = .sentTrue
      ∧ (sendEmail cfg0 "user@example.com" "subj" "hello" [jpgAttachment] false false
          (fun _ => true) (fun _ => true) cs0).sendCalls = 1
      ∧ (sendEmail cfg0 "user@example.com" "subj" "hello" [jpgAttachment] false false
          (fun _ => true) (fun _ => true) cs0).attachmentNames = []
      ∧ (sendEmail cfg0 "user@example.com" "subj" "hello" [jpgAttachment] false false
          (fun _ => true) (fun _ => true) cs0).attachmentErrors
          = ["Error attaching file pic.jpg: name MIMEImage is not defined"] := by
  refine ⟨by decide, by decide, by decide, by decide⟩

/-- C6 (amended): the PDF variant does abort: any attachment that fails
send-time processing makes that job return `False` before any transmission
or connection use, with the attachment-specific error recorded (a reason
distinct from network failures), the connection state untouched and other
jobs unaffected. The plain variant does not abort: with the first
transmission succeeding, the job reports success despite recorded
attachment errors. -/
theorem attachment_error_abort_policy :
    (∀ (cfg : SmtpConfig) (toEmail subject body : String) (files : List AttachmentFile)
        (testMode : Bool) (createOk sendOk : Nat → Bool) (cs : ConnState)
        (a : AttachmentFile), a ∈ files → (pdfErrMsg (processAttachmentPdf a)).isSome →
        (sendEmailPdf cfg toEmail subject body files testMode false createOk sendOk cs).result
            = .returnedFalse
          ∧ (sendEmailPdf cfg toEmail subject body files testMode false createOk
              sendOk cs).sendCalls = 0
          ∧ (sendEmailPdf cfg toEmail subject body files testMode false createOk
              sendOk cs).connState = cs
          ∧ (sendEmailPdf cfg toEmail subject body files testMode false createOk
              sendOk cs).attachmentErrors ≠ [])
      ∧ (∀ (cfg : SmtpConfig) (toEmail subject body : String)
          (files : List AttachmentFile) (createOk sendOk : Nat → Bool) (cs : ConnState),
          createOk cs.connOpens = true → sendOk 0 = true →
          (sendEmail cfg toEmail subject body files false false createOk sendOk cs).result
            = .sentTrue) := by
  constructor
  · intro cfg toEmail subject body files testMode createOk sendOk cs a ha hfail
    obtain ⟨hfalse, herr⟩ := processAllAttachments_fail files a ha hfail
    have hres : sendEmailPdf cfg toEmail subject body files testMode false createOk sendOk cs
        = { result := .returnedFalse,
            attachmentNames := (processAllAttachments files).2.1,
            attachmentErrors := (processAllAttachments files).2.2,
            testLog := [], sendCalls := 0, connState := cs } := by
      simp only [sendEmailPdf, Bool.false_eq_true, if_false, hfalse, Bool.not_false, if_true]
    rw [hres]
    exact ⟨rfl, rfl, rfl, herr⟩
  · intro cfg toEmail subject body files createOk sendOk cs hcreate hsend
    exact (sendEmail_first_attempt_success cfg toEmail subject body files createOk sendOk cs
      hcreate hsend).1

theorem attachment_error_abort_policy_witness :
    (sendEmailPdf cfg0 "user@example.com" "subj" "hello" [txtAttachment] false false
        (fun _ => true) (fun _ => true) cs0).result = .returnedFalse
      ∧ (sendEmail cfg0 "user@example.com" "subj" "hello" [txtAttachment] false false
          (fun _ => true) (fun _ => true) cs0).result = .sentTrue :=
  ⟨(attachment_error_abort_policy.1 cfg0 "user@example.com" "subj" "hello" [txtAttachment]
      false (fun _ => true) (fun _ => true) cs0 txtAttachment (by decide) (by decide)).1,
   attachment_error_abort_policy.2 cfg0 "user@example.com" "subj" "hello" [txtAttachment]
      (fun _ => true) (fun _ => true) cs0 rfl rfl⟩

/-- C10: an attachment whose guessed MIME type has maintype `image` or
`audio` with no content encoding always fails to attach in the plain
variant — the branch evaluates the unbound name `MIMEImage`/`MIMEAudio`
(NameError), or the preceding file open fails — and the exception is caught
and recorded only as an attachment error; with a working server and a
successful first transmission, the email is still sent without that
attachment and the job reports success. -/
theorem image_audio_attachments_always_fail (a : AttachmentFile) (c : String)
    (hc : a.guessedCtype = some c) (he : a.guessedEncoding = none)
    (hm : maintypeOf c = "image" ∨ maintypeOf c = "audio")
    (cfg : SmtpConfig) (toEmail subject body : String) (createOk sendOk : Nat → Bool)
    (cs : ConnState) (hcreate : createOk cs.connOpens = true) (hsend : sendOk 0 = true) :
    (∃ m, attachOne a = .errored m)
      ∧ (sendEmail cfg toEmail subject body [a] false false createOk sendOk cs).result
          = .sentTrue
      ∧ (sendEmail cfg toEmail subject body [a] false false createOk sendOk cs).attachmentNames
          = []
      ∧ (sendEmail cfg toEmail subject body [a] false false createOk sendOk cs).attachmentErrors
          ≠ [] := by
  have heff : effectiveCtype a = c := by
    simp [effectiveCtype, hc, he]
  have herr : ∃ m, attachOne a = .errored m := by
    by_cases hr : a.readable = true
    · rcases hm with h | h
      · refine ⟨"Error attaching file " ++ a.basename ++ ": name MIMEImage is not defined", ?_⟩
        simp only [attachOne]
        rw [heff, h, if_neg (by simp [hr]), if_neg (by decide), if_pos (by decide),
          if_neg (by decide)]
      · refine ⟨"Error attaching file " ++ a.basename ++ ": name MIMEAudio is not defined", ?_⟩
        simp only [attachOne]
        rw [heff, h, if_neg (by simp [hr]), if_neg (by decide), if_neg (by decide),
          if_pos (by decide), if_neg (by decide)]
    · refine ⟨"Error attaching file " ++ a.basename ++ ": cannot open or decode file", ?_⟩
      have hr2 : a.readable = false := by simpa [Bool.not_eq_true] using hr
      simp only [attachOne]
      rw [if_pos (by simp [hr2])]
  obtain ⟨m, hm2⟩ := herr
  have hpa : processAttachments [a] = ([], [m]) := by
    simp [processAttachments, hm2]
  refine ⟨⟨m, hm2⟩,
    (sendEmail_first_attempt_success cfg toEmail subject body [a] createOk sendOk cs
      hcreate hsend).1, ?_, ?_⟩
  · show (processAttachments [a]).1 = []
    rw [hpa]
  · show (processAttachments [a]).2 ≠ []
    rw [hpa]
    simp

theorem lookupFound_mem (l : List (String × Bool)) (k : String) (b : Bool)
    (h : lookupFound l k = some b) : (k, b) ∈ l := by
  unfold lookupFound at h
  cases hf : l.find? (fun p => decide (p.1 = k)) with
  | none => rw [hf] at h; simp at h
  | some p =>
    rw [hf] at h
    have hmem := List.mem_of_find?_eq_some hf
    have hp := List.find?_some hf
    simp only [decide_eq_true_eq] at hp
    simp only [Option.map_some', Option.some.injEq] at h
    have hpe : p = (k, b) := by
      obtain ⟨p1, p2⟩ := p
      simp only at hp h
      rw [hp, h]
    rwa [hpe] at hmem

theorem verifyRowStep_cache (fs : FileSystem) (dir : String)
    (acc : VerifyState × List String) (f : String)
    (hc : ∀ p ∈ acc.1.found, p.2 = (validateFile fs (joinPath dir p.1)).1) :
    ∀ p ∈ (verifyRowStep fs dir acc f).1.found,
      p.2 = (validateFile fs (joinPath dir p.1)).1 := by
  obtain ⟨st, rowInv⟩ := acc
  dsimp only at hc ⊢
  unfold verifyRowStep
  dsimp only
  cases hl : lookupFound st.found f with
  | some b =>
    dsimp only
    by_cases hb : b = true
    · rw [if_pos hb]; exact hc
    · rw [if_neg hb]; exact hc
  | none =>
    dsimp only
    by_cases hv : (validateFile fs (joinPath dir f)).1 = true
    · rw [if_pos hv]
      intro p hp
      rcases List.mem_append.mp hp with hmem | hmem
      · exact hc p hmem
      · simp only [List.mem_singleton] at hmem
        subst hmem
        exact hv.symm
    · rw [if_neg hv]
      intro p hp
      rcases List.mem_append.mp hp with hmem | hmem
      · exact hc p hmem
      · simp only [List.mem_singleton] at hmem
        subst hmem
        have hv2 : (validateFile fs (joinPath dir f)).1 = false := by
          simpa [Bool.not_eq_true] using hv
        exact hv2.symm

theorem verifyRowStep_inv (fs : FileSystem) (dir : String)
    (acc : VerifyState × List String) (f : String) :
    (verifyRowStep fs dir acc f).1.invalidAttachments = acc.1.invalidAttachments
      ∧ ∃ add, (verifyRowStep fs dir acc f).2 = acc.2 ++ add := by
  obtain ⟨st, rowInv⟩ := acc
  unfold verifyRowStep
  dsimp only
  cases hl : lookupFound st.found f with
  | some b =>
    dsimp only
    by_cases hb : b = true
    · rw [if_pos hb]
      exact ⟨rfl, [], by simp⟩
    · rw [if_neg hb]
      exact ⟨rfl, _, rfl⟩
  | none =>
    dsimp only
    by_cases hv : (validateFile fs (joinPath dir f)).1 = true
    · rw [if_pos hv]
      exact ⟨rfl, [], by simp⟩
    · rw [if_neg hv]
      exact ⟨rfl, _, rfl⟩

theorem verifyRow_fold_inv (fs : FileSystem) (dir : String) (files : List String)
    (acc : VerifyState × List String) :
    (files.foldl (verifyRowStep fs dir) acc).1.invalidAttachments
        = acc.1.invalidAttachments
      ∧ ∃ add, (files.foldl (verifyRowStep fs dir) acc).2 = acc.2 ++ add := by
  induction files generalizing acc with
  | nil => exact ⟨rfl, [], by simp⟩
  | cons g rest ih =>
    rw [List.foldl_cons]
    obtain ⟨h1, add1, hadd1⟩ := verifyRowStep_inv fs dir acc g
    obtain ⟨h2, add2, hadd2⟩ := ih (verifyRowStep fs dir acc g)
    refine ⟨by rw [h2, h1], add1 ++ add2, ?_⟩
    rw [hadd2, hadd1, List.append_assoc]

theorem verifyRow_fold_cache (fs : FileSystem) (dir : String) (files : List String)
    (acc : VerifyState × List String)
    (hc : ∀ p ∈ acc.1.found, p.2 = (validateFile fs (joinPath dir p.1)).1) :
    ∀ p ∈ (files.foldl (verifyRowStep fs dir) acc).1.found,
      p.2 = (validateFile fs (joinPath dir p.1)).1 := by
  revert hc
  induction files generalizing acc with
  | nil => exact fun hc => hc
  | cons g rest ih =>
    intro hc
    rw [List.foldl_cons]
    exact ih _ (verifyRowStep_cache fs dir acc g hc)

theorem verifyRow_detects (fs : FileSystem) (dir : String) (files : List String)
    (st : VerifyState) (rowInv : List String) (f : String)
    (hbad : (validateFile fs (joinPath dir f)).1 = false)
    (hc : ∀ p ∈ st.found, p.2 = (validateFile fs (joinPath dir p.1)).1)
    (hf : f ∈ files) :
    (files.foldl (verifyRowStep fs dir) (st, rowInv)).2 ≠ [] := by
  revert hc hf
  induction files generalizing st rowInv with
  | nil => intro _ hf; simp at hf
  | cons g rest ih =>
    intro hc hf
    rw [List.foldl_cons]
    rcases List.mem_cons.mp hf with heq | hmem
    · subst heq
      have hstep : ∃ add, (verifyRowStep fs dir (st, rowInv) f).2 = rowInv ++ add
          ∧ add ≠ [] := by
        unfold verifyRowStep
        dsimp only
        cases hl : lookupFound st.found f with
        | some b =>
          dsimp only
          have hb : b = (validateFile fs (joinPath dir f)).1 :=
            hc _ (lookupFound_mem _ _ _ hl)
          rw [hbad] at hb
          subst hb
          rw [if_neg (by simp)]
          exact ⟨_, rfl, by simp⟩
        | none =>
          dsimp only
          rw [if_neg (by simp [hbad])]
          exact ⟨_, rfl, by simp⟩
      obtain ⟨add, hadd, hne⟩ := hstep
      obtain ⟨-, add2, hadd2⟩ :=
        verifyRow_fold_inv fs dir rest (verifyRowStep fs dir (st, rowInv) f)
      rw [hadd2, hadd]
      intro hcon
      rcases List.append_eq_nil.mp hcon with ⟨h1, -⟩
      exact hne (List.append_eq_nil.mp h1).2
    · rcases hsg : verifyRowStep fs dir (st, rowInv) g with ⟨st2, rowInv2⟩
      have hc2 : ∀ p ∈ st2.found, p.2 = (validateFile fs (joinPath dir p.1)).1 := by
        have hk := verifyRowStep_cache fs dir (st, rowInv) g hc
        rwa [hsg] at hk
      exact ih st2 rowInv2 hc2 hmem

theorem verifyTaskStep_inv (fs : FileSystem) (dir : String) (st : VerifyState)
    (t : String × List String) :
    ∃ add, (verifyTaskStep fs dir st t).invalidAttachments
        = st.invalidAttachments ++ add := by
  unfold verifyTaskStep
  by_cases he : t.2.isEmpty = true
  · rw [if_pos he]
    exact ⟨[], by simp⟩
  · rw [if_neg he]
    dsimp only
    obtain ⟨hinv, -⟩ := verifyRow_fold_inv fs dir t.2 (st, [])
    by_cases hr : (t.2.foldl (verifyRowStep fs dir) (st, [])).2.isEmpty = true
    · rw [if_pos hr]
      exact ⟨[], by simp [hinv]⟩
    · rw [if_neg hr]
      exact ⟨_, by dsimp only; rw [hinv]⟩

theorem verifyTaskStep_cache (fs : FileSystem) (dir : String) (st : VerifyState)
    (t : String × List String)
    (hc : ∀ p ∈ st.found, p.2 = (validateFile fs (joinPath dir p.1)).1) :
    ∀ p ∈ (verifyTaskStep fs dir st t).found,
      p.2 = (validateFile fs (joinPath dir p.1)).1 := by
  unfold verifyTaskStep
  by_cases he : t.2.isEmpty = true
  · rw [if_pos he]; exact hc
  · rw [if_neg he]
    dsimp only
    have hfc := verifyRow_fold_cache fs dir t.2 (st, []) hc
    by_cases hr : (t.2.foldl (verifyRowStep fs dir) (st, [])).2.isEmpty = true
    · rw [if_pos hr]; exact hfc
    · rw [if_neg hr]; exact hfc

theorem verifyTasks_fold_inv (fs : FileSystem) (dir : String)
    (tasks : List (String × List String)) (st : VerifyState) :
    ∃ add, (tasks.foldl (verifyTaskStep fs dir) st).invalidAttachments
        = st.invalidAttachments ++ add := by
  induction tasks generalizing st with
  | nil => exact ⟨[], by simp⟩
  | cons u rest ih =>
    rw [List.foldl_cons]
    obtain ⟨a1, h1⟩ := verifyTaskStep_inv fs dir st u
    obtain ⟨a2, h2⟩ := ih (verifyTaskStep fs dir st u)
    exact ⟨a1 ++ a2, by rw [h2, h1, List.append_assoc]⟩

theorem verifyTasks_detects (fs : FileSystem) (dir : String)
    (tasks : List (String × List String)) (st : VerifyState)
    (t : String × List String) (f : String) (hf : f ∈ t.2)
    (hbad : (validateFile fs (joinPath dir f)).1 = false)
    (hc : ∀ p ∈ st.found, p.2 = (validateFile fs (joinPath dir p.1)).1)
    (ht : t ∈ tasks) :
    (tasks.foldl (verifyTaskStep fs dir) st).invalidAttachments ≠ [] := by
  revert hc ht
  induction tasks generalizing st with
  | nil => intro _ ht; simp at ht
  | cons u rest ih =>
    intro hc ht
    rw [List.foldl_cons]
    rcases List.mem_cons.mp ht with heq | hmem
    · subst heq
      have hne : (verifyTaskStep fs dir st t).invalidAttachments ≠ [] := by
        unfold verifyTaskStep
        have hnem : t.2.isEmpty = false := by
          cases ht2 : t.2 with
          | nil => rw [ht2] at hf; simp at hf
          | cons x xs => simp
        rw [if_neg (by simp [hnem])]
        dsimp only
        have hrow := verifyRow_detects fs dir t.2 st [] f hbad hc hf
        rw [if_neg (by simp only [List.isEmpty_iff]; exact hrow)]
        simp
      obtain ⟨add, hadd⟩ := verifyTasks_fold_inv fs dir rest (verifyTaskStep fs dir st t)
      rw [hadd]
      intro hcon
      exact hne (List.append_eq_nil.mp hcon).1
    · exact ih (verifyTaskStep fs dir st u) (verifyTaskStep_cache fs dir st u hc) hmem

/-- C2: when any attachment file referenced by any task is missing or
invalid (fails `validate_file`), the PDF variant's `main` aborts with a
`ValueError` raised by `verify_attachment_files` before the dispatch phase:
zero transmissions occur and zero network connections are opened or
attempted. -/
theorem preflight_gate_blocks_all_sends (fs : FileSystem) (dir : String) (cfg : SmtpConfig)
    (subject body : String) (testMode : Bool) (createOk sendOk : Nat → Bool)
    (tasks : List (String × List String)) (t : String × List String) (f : String)
    (ht : t ∈ tasks) (hf : f ∈ t.2)
    (hbad : (validateFile fs (joinPath dir f)).1 = false) :
    ∃ e, mainDispatchPdf fs dir cfg subject body testMode createOk sendOk tasks
        = { result := .error e, sendCalls := 0, connOpens := 0 } := by
  have hdet := verifyTasks_detects fs dir tasks ⟨[], [], 0, 0⟩ t f hf hbad (by simp) ht
  unfold mainDispatchPdf verifyAttachmentFiles
  dsimp only
  rw [if_neg (by simp only [List.isEmpty_iff]; exact hdet)]
  exact ⟨_, rfl⟩

theorem preflight_gate_witness :
    ∃ e, mainDispatchPdf fsC2 "files" cfg0 "subj" "hello" false
        (fun _ => true) (fun _ => true) [("user@example.com", ["a.pdf"])]
        = { result := .error e, sendCalls := 0, connOpens := 0 } :=
  preflight_gate_blocks_all_sends fsC2 "files" cfg0 "subj" "hello" false
    (fun _ => true) (fun _ => true) [("user@example.com", ["a.pdf"])]
    ("user@example.com", ["a.pdf"]) "a.pdf" (by decide) (by decide) (by decide)

theorem image_audio_attachments_witness :
    (∃ m, attachOne mp3Attachment = .errored m)
      ∧ (sendEmail cfg0 "user@example.com" "subj" "hello" [mp3Attachment] false false
          (fun _ => true) (fun _ => true) cs0).result = .sentTrue
      ∧ (sendEmail cfg0 "user@example.com" "subj" "hello" [mp3Attachment] false false
          (fun _ => true) (fun _ => true) cs0).attachmentNames = []
      ∧ (sendEmail cfg0 "user@example.com" "subj" "hello" [mp3Attachment] false false
          (fun _ => true) (fun _ => true) cs0).attachmentErrors ≠ [] :=
  image_audio_attachments_always_fail mp3Attachment "audio/mpeg" rfl rfl
    (Or.inr (by decide)) cfg0 "user@example.com" "subj" "hello"
    (fun _ => true) (fun _ => true) cs0 rfl rfl

end EmailDispatch
